import Mathlib

/-!
Verification of the FSNB XML→Markdown converter (`xmlFSNB`).

The development shallowly embeds the algorithmic core of the repository:

* `app/workers/parsers.py` — the streaming ФСБЦ parser (`XmlParserWorker.run`)
  and the streaming ГЭСН parser (`GesnXmlParserWorker.run`);
* `app/workers/exporters.py` — the ФСБЦ Markdown serializer
  (`MarkdownExporterWorker.run`) and the ГЭСН Markdown serializer
  (`GesnMarkdownExporterWorker.run`);
* `app/models.py` — the record data classes.

An XML source file is modelled as an element tree `XmlElem`; the
`xml.etree.ElementTree.iterparse` event stream over the file is recovered by
`eventsOf` (a `start` event at each element open, a `stop` event carrying the
whole element at its close, in document order).  The raw bytes of the file —
needed only for the parsers' pre-scan substring count — are modelled by the
canonical serialization `render`.  Qt signal emissions are modelled as data:
progress percentages are accumulated in a list, and the terminal
`finished.emit(...)` payload is the returned state.
-/

/-- An XML element: tag, attributes (in document order), optional text, and
child elements.  Mirrors the subset of `xml.etree.ElementTree.Element` the
workers use (`tag`, `get`, `text`, iteration over children, `find`). -/
inductive XmlElem where
  | mk (tag : String) (attrs : List (String × String)) (text : Option String)
      (children : List XmlElem)

/-- Tag of an element. -/
def XmlElem.tag : XmlElem → String
  | .mk t _ _ _ => t

/-- Attribute list of an element. -/
def XmlElem.attrs : XmlElem → List (String × String)
  | .mk _ a _ _ => a

/-- Text content of an element (the `.text` field of ElementTree). -/
def XmlElem.text : XmlElem → Option String
  | .mk _ _ x _ => x

/-- Children of an element. -/
def XmlElem.children : XmlElem → List XmlElem
  | .mk _ _ _ c => c

/-- Placeholder element (never observed; used only to destruct an `Option`
that is known to be `some`). -/
def dummyElem : XmlElem := .mk "" [] none []

/-- Attribute lookup with default `""`: models Python `elem.get(key, "")`. -/
def attr (e : XmlElem) (k : String) : String :=
  match e.attrs.find? (fun kv => kv.1 == k) with
  | some kv => kv.2
  | none => ""

mutual
/-- First element with the given tag among the self-or-descendants of a
sibling list, in document order: `elem.find(".//T")` applied to the children
of an element (the element itself is excluded, as in ElementTree). -/
def findDesc (t : String) : List XmlElem → Option XmlElem
  | [] => none
  | c :: cs =>
    match findDescElem t c with
    | some r => some r
    | none => findDesc t cs

/-- First element with the given tag in an element's self-or-descendants, in
document order. -/
def findDescElem (t : String) : XmlElem → Option XmlElem
  | .mk tg a x ch => if tg = t then some (.mk tg a x ch) else findDesc t ch
end

/-- First direct child with the given tag: models `elem.find("T")`. -/
def findChild (t : String) (e : XmlElem) : Option XmlElem :=
  e.children.find? (fun c => c.tag == t)

/-- A parse event of `ElementTree.iterparse(..., events=("start", "end"))`.
The `stop` event carries the complete element, as `iterparse` delivers the
fully built element at its close tag. -/
inductive XmlEvent where
  | start (e : XmlElem)
  | stop (e : XmlElem)

mutual
/-- The `iterparse` event stream of an element: its `start` event, the events
of its children in order, then its `stop` event. -/
def eventsOf : XmlElem → List XmlEvent
  | .mk t a x cs => .start (.mk t a x cs) :: (eventsList cs ++ [.stop (.mk t a x cs)])

/-- Event stream of a sibling list, in document order. -/
def eventsList : List XmlElem → List XmlEvent
  | [] => []
  | c :: cs => eventsOf c ++ eventsList cs
end

/-- XML-escape of one character, as any well-formed serialization must escape
markup characters in attribute values and text. -/
def escXmlChar (c : Char) : List Char :=
  if c = '&' then "&amp;".data
  else if c = '<' then "&lt;".data
  else if c = '>' then "&gt;".data
  else if c = '"' then "&quot;".data
  else [c]

/-- XML-escape of a string. -/
def xmlEscape (s : String) : String :=
  ⟨s.data.foldr (fun c acc => escXmlChar c ++ acc) []⟩

/-- Canonical rendering of an attribute list: one leading space before each
`key="value"` pair. -/
def renderAttrs : List (String × String) → String
  | [] => ""
  | (k, v) :: rest => " " ++ k ++ "=\"" ++ xmlEscape v ++ "\"" ++ renderAttrs rest

mutual
/-- Canonical serialization of an element tree: the model of the raw bytes of
the source file, used only by the parsers' pre-scan substring count. -/
def render : XmlElem → String
  | .mk t a x cs =>
    ("<" ++ t ++ renderAttrs a ++ ">" ++ xmlEscape (x.getD "")) ++
      (renderList cs ++ ("</" ++ t ++ ">"))

/-- Serialization of a sibling list. -/
def renderList : List XmlElem → String
  | [] => ""
  | c :: cs => render c ++ renderList cs
end

/-- Whether `pat` occurs at the head of `l`. -/
def leadsWith : List Char → List Char → Bool
  | [], _ => true
  | _ :: _, [] => false
  | p :: ps, c :: cs => p = c && leadsWith ps cs

/-- Scanner behind `countSub`: walks the list one character at a time; after
a match the next `pat.length - 1` characters are skipped (`skip` counter), so
occurrences are counted without overlap, left to right. -/
def countSubAux (pat : List Char) : List Char → Nat → Nat
  | [], _ => 0
  | _ :: rest, skip + 1 => countSubAux pat rest skip
  | c :: rest, 0 =>
    if leadsWith pat (c :: rest) then 1 + countSubAux pat rest (pat.length - 1)
    else countSubAux pat rest 0

/-- Number of non-overlapping occurrences of `pat` in a character list, left
to right: models Python `bytes.count(pat)`. -/
def countSub (pat l : List Char) : Nat := countSubAux pat l 0


/-- A context-stack entry `(type, code, name)` pushed for a `Section` open
event (`hierarchy_stack` / `section_stack` in the source). -/
structure Ctx where
  ctype : String
  code : String
  name : String
deriving DecidableEq

/-- `CatalogMetadata` from `app/models.py`. -/
structure CatalogMetadata where
  approving_act_number : String
  approving_act_date : String
deriving DecidableEq

/-- `ResourceRecord` from `app/models.py`. -/
structure ResourceRecord where
  category_type : String
  book_code : String
  book_name : String
  part_code : String
  part_name : String
  section_code : String
  section_name : String
  group_code : String
  group_name : String
  code : String
  name : String
  measure_unit : String
  cost : String
  opt_cost : String
deriving DecidableEq

/-- Parser state of `XmlParserWorker.run`: the mutable locals of the loop plus
the accumulated progress emissions. -/
structure FsbcState where
  meta : CatalogMetadata
  records : List ResourceRecord
  stack : List Ctx
  cat : String
  parsed : Nat
  errors : Nat
  progress : List Nat

/-- Initial ФСБЦ parser state (`metadata = CatalogMetadata("", "")`, empty
record list and stack, counters zero). -/
def fsbcInit : FsbcState :=
  { meta := ⟨"", ""⟩, records := [], stack := [], cat := "", parsed := 0,
    errors := 0, progress := [] }

/-- One step of the `for item in hierarchy_stack` lookup loop of
`XmlParserWorker.run` (source lines 79–87): four assignment slots for
book/part/section/group, overwritten by any matching entry. -/
def hierUpd (acc : Ctx × Ctx × Ctx × Ctx) (item : Ctx) : Ctx × Ctx × Ctx × Ctx :=
  ( if item.ctype = "Книга" then item else acc.1,
    if item.ctype = "Часть" then item else acc.2.1,
    if item.ctype = "Раздел" then item else acc.2.2.1,
    if item.ctype = "Группа" then item else acc.2.2.2 )

/-- Empty context triple, the initial value of each lookup slot
(`("", "", "")` in the source). -/
def emptyCtx : Ctx := ⟨"", "", ""⟩

/-- The `ResourceRecord` built at a `Resource` close event from the current
category, the hierarchy lookup over the live stack, the leaf attributes, and
the located `Price` element (source lines 72–106). -/
def mkResourceRecord (cat : String) (stack : List Ctx) (e : XmlElem) (p : XmlElem) :
    ResourceRecord :=
  let h := stack.foldl hierUpd (emptyCtx, emptyCtx, emptyCtx, emptyCtx)
  { category_type := cat,
    book_code := h.1.code, book_name := h.1.name,
    part_code := h.2.1.code, part_name := h.2.1.name,
    section_code := h.2.2.1.code, section_name := h.2.2.1.name,
    group_code := h.2.2.2.code, group_name := h.2.2.2.name,
    code := attr e "Code", name := attr e "Name",
    measure_unit := attr e "MeasureUnit",
    cost := attr p "Cost", opt_cost := attr p "OptCost" }

/-- One event step of `XmlParserWorker.run` (source lines 43–112).  `total` is
the pre-computed progress denominator `total_resources`. -/
def fsbcStep (total : Nat) (st : FsbcState) : XmlEvent → FsbcState
  | .start e =>
    if e.tag = "ResourceCategory" then { st with cat := attr e "Type" }
    else if e.tag = "Section" then
      { st with stack := st.stack ++ [⟨attr e "Type", attr e "Code", attr e "Name"⟩] }
    else st
  | .stop e =>
    if e.tag = "ApprovingActNumber" then
      { st with meta := { st.meta with approving_act_number := e.text.getD "" } }
    else if e.tag = "ApprovingActDate" then
      { st with meta := { st.meta with approving_act_date := e.text.getD "" } }
    else if e.tag = "Resource" then
      let parsed := st.parsed + 1
      let progress :=
        if parsed % 500 = 0 then st.progress ++ [parsed * 100 / total] else st.progress
      if attr e "Code" ≠ "" ∧ attr e "Name" ≠ "" ∧ (findDesc "Price" e.children).isSome then
        { st with parsed := parsed, progress := progress,
                  records := st.records ++
                    [mkResourceRecord st.cat st.stack e
                      ((findDesc "Price" e.children).getD dummyElem)] }
      else
        { st with parsed := parsed, progress := progress, errors := st.errors + 1 }
    else if e.tag = "Section" then
      { st with stack := st.stack.dropLast }
    else st

/-- The pre-scan leaf marker of the ФСБЦ parser: `b"<Resource "`. -/
def resMarker : List Char := "<Resource ".data

/-- The pre-scan candidate count of `XmlParserWorker.run` (source lines
32–34): the substring count of `<Resource ` in the raw bytes, floored at 1. -/
def fsbcTotal (doc : XmlElem) : Nat :=
  let c := countSub resMarker (render doc).data
  if c = 0 then 1 else c

/-- The full ФСБЦ parse of a source document: pre-scan, event fold, final
`progress.emit(100)`.  Returns the final state and the candidate count passed
to `finished.emit` (source line 115). -/
def fsbcRun (doc : XmlElem) : FsbcState × Nat :=
  let total := fsbcTotal doc
  let st := (eventsOf doc).foldl (fsbcStep total) fsbcInit
  ({ st with progress := st.progress ++ [100] }, total)

/-- Whether an event is a `Resource` close event. -/
def isResStop : XmlEvent → Bool
  | .stop e => e.tag = "Resource"
  | .start _ => false

/-- Number of `Resource` close events in an event stream. -/
def countResStops (evs : List XmlEvent) : Nat := evs.countP isResStop

/-- `GesnMetadata` from `app/models.py`. -/
structure GesnMetadata where
  price_level : String := ""
  base_name : String := ""
  decree_name : String := ""
  category_type : String := ""
  code_prefix : String := ""
deriving DecidableEq

/-- `GesnWorkResource` from `app/models.py`. -/
structure GesnWorkResource where
  code : String := ""
  end_name : String := ""
  quantity : String := ""
  measure_unit : String := ""
deriving DecidableEq

/-- `GesnWorkRecord` from `app/models.py`. -/
structure GesnWorkRecord where
  sbornik_code : String := ""
  sbornik_name : String := ""
  otdel_code : String := ""
  otdel_name : String := ""
  razdel_code : String := ""
  razdel_name : String := ""
  podrazdel_code : String := ""
  podrazdel_name : String := ""
  table_code : String := ""
  table_name : String := ""
  name_group_begin : String := ""
  code : String := ""
  end_name : String := ""
  measure_unit : String := ""
  full_name : String := ""
  content_items : List String := []
  resources : List GesnWorkResource := []
  nr : String := ""
  sp : String := ""
deriving DecidableEq

/-- Python's default `str.strip()` whitespace set (ASCII part). -/
def isPySpace (c : Char) : Bool :=
  c = ' ' || c = '\t' || c = '\n' || c = '\r' || c = '\x0b' || c = '\x0c'

/-- Python `str.strip()`: remove leading and trailing whitespace. -/
def pyStrip (s : String) : String :=
  ⟨((s.data.dropWhile isPySpace).reverse.dropWhile isPySpace).reverse⟩

/-- `GesnXmlParserWorker.SECTION_TYPE_MAP`: section type label to hierarchy
slot key. -/
def sectionTypeKey (t : String) : Option String :=
  if t = "Сборник" then some "sbornik"
  else if t = "Отдел" then some "otdel"
  else if t = "Раздел" then some "razdel"
  else if t = "Подраздел" then some "podrazdel"
  else if t = "Таблица" then some "table"
  else none

/-- The five-slot hierarchy dictionary of `GesnXmlParserWorker.run` (source
lines 214–218): `(code, name)` for sbornik/otdel/razdel/podrazdel/table. -/
structure GesnHier where
  sbornik : String × String := ("", "")
  otdel : String × String := ("", "")
  razdel : String × String := ("", "")
  podrazdel : String × String := ("", "")
  table : String × String := ("", "")

/-- One step of the `for s_type, s_code, s_name in section_stack` loop of
`GesnXmlParserWorker.run` (source lines 219–222). -/
def gesnHierUpd (acc : GesnHier) (c : Ctx) : GesnHier :=
  match sectionTypeKey c.ctype with
  | some k =>
    if k = "sbornik" then { acc with sbornik := (c.code, c.name) }
    else if k = "otdel" then { acc with otdel := (c.code, c.name) }
    else if k = "razdel" then { acc with razdel := (c.code, c.name) }
    else if k = "podrazdel" then { acc with podrazdel := (c.code, c.name) }
    else if k = "table" then { acc with table := (c.code, c.name) }
    else acc
  | none => acc

/-- The record extraction performed inside the `try` block at a `Work` close
event (`GesnXmlParserWorker.run`, source lines 183–248), as a pure function of
the closed element, the live section stack, and the current
`name_group_begin` value. -/
def extractWork (e : XmlElem) (stack : List Ctx) (ngb : String) : GesnWorkRecord :=
  let code := attr e "Code"
  let en := attr e "EndName"
  let mu := attr e "MeasureUnit"
  let contentItems :=
    match findChild "Content" e with
    | none => []
    | some c =>
      ((c.children.filter (fun i => i.tag == "Item")).map (fun i => attr i "Text")).filter
        (fun t => t ≠ "")
  let resources :=
    match findChild "Resources" e with
    | none => []
    | some rs =>
      (rs.children.filter (fun c => c.tag == "Resource")).map
        (fun r => GesnWorkResource.mk (attr r "Code") (attr r "EndName")
          (attr r "Quantity") (attr r "MeasureUnit"))
  let nrsp :=
    match findChild "NrSp" e with
    | none => ("", "")
    | some ns =>
      match findChild "ReasonItem" ns with
      | none => ("", "")
      | some ri => (attr ri "Nr", attr ri "Sp")
  let h := stack.foldl gesnHierUpd {}
  let fullName := if en = "" then ngb else pyStrip (ngb ++ " " ++ en)
  { sbornik_code := h.sbornik.1, sbornik_name := h.sbornik.2,
    otdel_code := h.otdel.1, otdel_name := h.otdel.2,
    razdel_code := h.razdel.1, razdel_name := h.razdel.2,
    podrazdel_code := h.podrazdel.1, podrazdel_name := h.podrazdel.2,
    table_code := h.table.1, table_name := h.table.2,
    name_group_begin := ngb, code := code, end_name := en, measure_unit := mu,
    full_name := fullName, content_items := contentItems, resources := resources,
    nr := nrsp.1, sp := nrsp.2 }

/-- Parser state of `GesnXmlParserWorker.run`. -/
structure GesnState where
  meta : GesnMetadata
  records : List GesnWorkRecord
  stack : List Ctx
  ngb : String
  parsed : Nat
  errors : Nat
  progress : List Nat

/-- Initial ГЭСН parser state. -/
def gesnInit : GesnState :=
  { meta := {}, records := [], stack := [], ngb := "", parsed := 0, errors := 0,
    progress := [] }

/-- The extraction oracle abstracting the body of the `try` block at a `Work`
close event: it either returns a record or raises (`Except.error`), which the
surrounding `except` clause catches.  `gesnOk` instantiates it with the pure
extraction `extractWork`, which models a run in which no extraction raises. -/
def GesnExtract : Type :=
  XmlElem → List Ctx → String → Except Unit GesnWorkRecord

/-- The non-raising instantiation of the extraction oracle. -/
def gesnOk : GesnExtract := fun e stack ngb => .ok (extractWork e stack ngb)

/-- One event step of `GesnXmlParserWorker.run` (source lines 158–260),
parameterized by the extraction oracle `f` for the `try` block.  `total` is
the pre-computed progress denominator `total_works`. -/
def gesnStep (f : GesnExtract) (total : Nat) (st : GesnState) : XmlEvent → GesnState
  | .start e =>
    if e.tag = "base" then
      { st with meta := { st.meta with
          price_level := attr e "PriceLevel",
          base_name := attr e "BaseName" } }
    else if e.tag = "ResourceCategory" then
      { st with meta := { st.meta with
          category_type := attr e "Type",
          code_prefix := attr e "CodePrefix" } }
    else if e.tag = "Section" then
      { st with stack := st.stack ++ [⟨attr e "Type", attr e "Code", attr e "Name"⟩] }
    else if e.tag = "NameGroup" then
      { st with ngb := attr e "BeginName" }
    else st
  | .stop e =>
    if e.tag = "Decree" then
      { st with meta := { st.meta with decree_name := attr e "Name" } }
    else if e.tag = "Work" then
      let parsed := st.parsed + 1
      let progress :=
        if parsed % 200 = 0 then st.progress ++ [parsed * 100 / total] else st.progress
      match f e st.stack st.ngb with
      | .ok r =>
        { st with parsed := parsed, progress := progress,
                  records := st.records ++ [r] }
      | .error _ =>
        { st with parsed := parsed, progress := progress, errors := st.errors + 1 }
    else if e.tag = "NameGroup" then
      { st with ngb := "" }
    else if e.tag = "Section" then
      { st with stack := st.stack.dropLast }
    else st

/-- The pre-scan leaf marker of the ГЭСН parser: `b"<Work "`. -/
def workMarker : List Char := "<Work ".data

/-- The pre-scan progress denominator of `GesnXmlParserWorker.run` (source
lines 147–149). -/
def gesnTotal (doc : XmlElem) : Nat :=
  let c := countSub workMarker (render doc).data
  if c = 0 then 1 else c

/-- The full ГЭСН parse with extraction oracle `f`: pre-scan, event fold,
final `progress.emit(100)`.  The returned candidate count of
`finished.emit(metadata, records, parsed_count, error_count)` (source line
263) is the `parsed` field of the final state. -/
def gesnRunWith (f : GesnExtract) (doc : XmlElem) : GesnState :=
  { (eventsOf doc).foldl (gesnStep f (gesnTotal doc)) gesnInit with
    progress := ((eventsOf doc).foldl (gesnStep f (gesnTotal doc)) gesnInit).progress ++ [100] }

/-- The ГЭСН parse as the source runs it: no extraction raises. -/
def gesnRun (doc : XmlElem) : GesnState := gesnRunWith gesnOk doc

/-- Whether an event is a `Work` close event. -/
def isWorkStop : XmlEvent → Bool
  | .stop e => e.tag = "Work"
  | .start _ => false

/-- Number of `Work` close events in an event stream. -/
def countWorkStops (evs : List XmlEvent) : Nat := evs.countP isWorkStop

/-- Pipe escaping used by both serializers: Python
`text.replace("|", r"\|")` at the character level (the pattern is a single
character, so `replace` is a per-character substitution). -/
def escList : List Char → List Char
  | [] => []
  | c :: rest => if c = '|' then '\\' :: '|' :: escList rest else c :: escList rest

/-- Pipe escaping on strings (`MarkdownExporterWorker.run` line 76 and
`GesnMarkdownExporterWorker._escape`). -/
def escapePipes (s : String) : String := ⟨escList s.data⟩

/-- Grouping-tracker state of `MarkdownExporterWorker.run`: the five
`current_*` variables, `none` modelling Python `None`. -/
structure MdState where
  cat : Option String
  book : Option String
  part : Option String
  sec : Option String
  grp : Option String

/-- Initial tracker state: all five trackers `None`. -/
def mdInit : MdState :=
  { cat := none, book := none, part := none, sec := none, grp := none }

/-- The fixed ФСБЦ resource-table header row (source line 73). -/
def fsbcTableHdr : String := "| Код | Наименование | Ед. изм. | Стоимость | Опт. стоимость |"

/-- The fixed ФСБЦ resource-table separator row (source line 74). -/
def fsbcTableSep : String := "|-----|-------------|----------|-----------|----------------|"

/-- Category stage of the per-record serializer step (source lines 45–49). -/
def mdStepCat : MdState × List String → ResourceRecord → MdState × List String
  | (s, out), r =>
    if s.cat = some r.category_type then (s, out)
    else
      ({ s with cat := some r.category_type, book := none, part := none,
                sec := none, grp := none },
       out ++ ["# " ++ r.category_type, ""])

/-- Book stage of the per-record serializer step (source lines 51–55). -/
def mdStepBook : MdState × List String → ResourceRecord → MdState × List String
  | (s, out), r =>
    if s.book = some r.book_code then (s, out)
    else
      ({ s with book := some r.book_code, part := none, sec := none, grp := none },
       out ++ ["## " ++ r.book_code ++ ". " ++ r.book_name, ""])

/-- Part stage of the per-record serializer step (source lines 57–61). -/
def mdStepPart : MdState × List String → ResourceRecord → MdState × List String
  | (s, out), r =>
    if s.part = some r.part_code then (s, out)
    else
      ({ s with part := some r.part_code, sec := none, grp := none },
       out ++ ["### " ++ r.part_code ++ ". " ++ r.part_name, ""])

/-- Section stage of the per-record serializer step (source lines 63–67). -/
def mdStepSec : MdState × List String → ResourceRecord → MdState × List String
  | (s, out), r =>
    if s.sec = some r.section_code then (s, out)
    else
      ({ s with sec := some r.section_code, grp := none },
       out ++ ["#### " ++ r.section_code ++ ". " ++ r.section_name, ""])

/-- Group stage of the per-record serializer step (source lines 69–74): a
level-5 heading followed by a fresh table header and separator. -/
def mdStepGrp : MdState × List String → ResourceRecord → MdState × List String
  | (s, out), r =>
    if s.grp = some r.group_code then (s, out)
    else
      ({ s with grp := some r.group_code },
       out ++ ["##### " ++ r.group_code ++ ". " ++ r.group_name, "",
               fsbcTableHdr, fsbcTableSep])

/-- The table row emitted for every record (source lines 76–79); only the
name cell is pipe-escaped. -/
def mdRow (r : ResourceRecord) : String :=
  "| " ++ r.code ++ " | " ++ escapePipes r.name ++ " | " ++ r.measure_unit ++
    " | " ++ r.cost ++ " | " ++ r.opt_cost ++ " |"

/-- One record of the ФСБЦ serializer loop: the five grouping stages in
order, then the table row. -/
def mdStep (s : MdState) (r : ResourceRecord) : MdState × List String :=
  match mdStepGrp (mdStepSec (mdStepPart (mdStepBook (mdStepCat (s, []) r) r) r) r) r with
  | (s5, out) => (s5, out ++ [mdRow r])

/-- The serializer loop over the ordered record sequence. -/
def mdFold (s : MdState) : List ResourceRecord → MdState × List String
  | [] => (s, [])
  | r :: rs =>
    match mdStep s r with
    | (s1, out) =>
      match mdFold s1 rs with
      | (s2, out2) => (s2, out ++ out2)

/-- Document header lines of `MarkdownExporterWorker.run` (source lines
29–35). -/
def mdHeaderLines (m : CatalogMetadata) : List String :=
  [ "# Федеральный сборник базовых цен на материалы и оборудование",
    "",
    "**Утверждающий акт:** " ++ m.approving_act_number ++ "  ",
    "**Дата утверждения:** " ++ m.approving_act_date,
    "",
    "---",
    "" ]

/-- Insertion-ordered category counting (`cat_counts` dict, source line 88). -/
def bumpCount : List (String × Nat) → String → List (String × Nat)
  | [], k => [(k, 1)]
  | (a, n) :: rest, k =>
    if a = k then (a, n + 1) :: rest else (a, n) :: bumpCount rest k

/-- Per-category record counts in first-seen order. -/
def catCounts (rs : List ResourceRecord) : List (String × Nat) :=
  rs.foldl (fun l r => bumpCount l r.category_type) []

/-- Accumulate a distinct-value list (`set` in the source; only its size is
observed, so insertion order is irrelevant). -/
def addDistinct (l : List String) (x : String) : List String :=
  if x ∈ l then l else l ++ [x]

/-- Number of distinct book codes among the records (source line 89/100). -/
def distinctBookCodes (rs : List ResourceRecord) : Nat :=
  (rs.foldl (fun l r => addDistinct l r.book_code) []).length

/-- Number of distinct group codes among the records (source line 90/101). -/
def distinctGroupCodes (rs : List ResourceRecord) : Nat :=
  (rs.foldl (fun l r => addDistinct l r.group_code) []).length

/-- Summary lines of `MarkdownExporterWorker.run` (source lines 92–109). -/
def mdSummaryLines (rs : List ResourceRecord) (totalInXml parseErrors : Nat) :
    List String :=
  [ "", "---", "",
    "# Сводная информация по конвертации", "",
    "- **Прочитано ресурсов в XML:** " ++ toString totalInXml,
    "- **Создано записей в документе:** " ++ toString rs.length,
    "- **Пропущено (ошибки):** " ++ toString parseErrors,
    "- **Книг (разделов верхнего уровня):** " ++ toString (distinctBookCodes rs),
    "- **Групп ресурсов:** " ++ toString (distinctGroupCodes rs),
    "",
    "**По категориям:**", "",
    "| Категория | Кол-во ресурсов |",
    "|-----------|-----------------|" ]
  ++ (catCounts rs).map (fun kv => "| " ++ kv.1 ++ " | " ++ toString kv.2 ++ " |")
  ++ [""]

/-- The full line list of the ФСБЦ Markdown document. -/
def mdLines (m : CatalogMetadata) (rs : List ResourceRecord)
    (totalInXml parseErrors : Nat) : List String :=
  mdHeaderLines m ++ (mdFold mdInit rs).2 ++ mdSummaryLines rs totalInXml parseErrors

/-- The write calls of the ФСБЦ exporter: the whole document is the single
argument of one `f.write("\n".join(lines))` call (source lines 111–112). -/
def fsbcWriteChunks (m : CatalogMetadata) (rs : List ResourceRecord)
    (totalInXml parseErrors : Nat) : List String :=
  [String.intercalate "\n" (mdLines m rs totalInXml parseErrors)]

/-- Thousands grouping of a reversed digit list: a comma after every third
digit. -/
def groupRev : List Char → List Char
  | a :: b :: c :: d :: rest => a :: b :: c :: ',' :: groupRev (d :: rest)
  | l => l

/-- Python format `f"{n:,}"` on a natural number. -/
def fmtThousands (n : Nat) : String :=
  ⟨(groupRev (toString n).data.reverse).reverse⟩

/-- `GesnMarkdownExporterWorker._build_breadcrumb`. -/
def buildBreadcrumb (w : GesnWorkRecord) : String :=
  String.intercalate " > "
    ((if w.sbornik_code ≠ "" then
        ["Сборник " ++ w.sbornik_code ++ " \"" ++ w.sbornik_name ++ "\""] else [])
     ++ (if w.otdel_code ≠ "" then
        ["Отдел " ++ w.otdel_code ++ " \"" ++ w.otdel_name ++ "\""] else [])
     ++ (if w.razdel_code ≠ "" then
        ["Раздел " ++ w.razdel_code ++ " \"" ++ w.razdel_name ++ "\""] else [])
     ++ (if w.podrazdel_code ≠ "" then
        ["Подраздел " ++ w.podrazdel_code ++ " \"" ++ w.podrazdel_name ++ "\""] else [])
     ++ (if w.table_code ≠ "" then ["Таблица " ++ w.table_code] else []))

/-- The resource-table row written by the ГЭСН exporter for one consumed
resource (source lines 197–202): one `f.write` call; only the name cell
(`end_name`) is passed through `_escape`. -/
def gesnResourceRow (res : GesnWorkResource) : String :=
  "| " ++ res.code ++ " | " ++ escapePipes res.end_name ++ " | " ++
    res.measure_unit ++ " | " ++ res.quantity ++ " |\n"

/-- The sequence of `f.write` arguments for one work record of the ГЭСН
exporter (source lines 172–208), in order. -/
def gesnWorkChunks (w : GesnWorkRecord) : List String :=
  [ "## ГЭСН " ++ w.code ++ " — " ++ escapePipes w.full_name ++ "\n\n",
    "**Код нормы:** " ++ w.code ++ "  \n",
    "**Единица измерения:** " ++ w.measure_unit ++ "  \n",
    "**Расположение:** " ++ escapePipes (buildBreadcrumb w) ++ "  \n" ]
  ++ (if w.nr ≠ "" ∨ w.sp ≠ "" then
        ["**Нр:** " ++ w.nr ++ " | **Сп:** " ++ w.sp ++ "\n"] else [])
  ++ ["\n"]
  ++ (if w.content_items ≠ [] then
        ["### Состав работ\n\n"]
        ++ w.content_items.map (fun t => "- " ++ escapePipes t ++ "\n")
        ++ ["\n"]
      else [])
  ++ (if w.resources ≠ [] then
        ["### Ресурсы\n\n",
         "| Код ресурса | Наименование | Ед. изм. | Количество |\n",
         "|---|---|---|---|\n"]
        ++ w.resources.map gesnResourceRow
        ++ ["\n"]
      else [])
  ++ ["---\n\n"]

/-- Concatenation of the per-record chunk sequences. -/
def gesnRecordChunks : List GesnWorkRecord → List String
  | [] => []
  | w :: ws => gesnWorkChunks w ++ gesnRecordChunks ws

/-- Aggregate consumed-resource count over all records (accumulated in the
loop in the source, summed here). -/
def gesnTotalResources (rs : List GesnWorkRecord) : Nat :=
  rs.foldl (fun a w => a + w.resources.length) 0

/-- Aggregate content-item count over all records. -/
def gesnTotalContentItems (rs : List GesnWorkRecord) : Nat :=
  rs.foldl (fun a w => a + w.content_items.length) 0

/-- The full ordered sequence of `f.write` arguments of
`GesnMarkdownExporterWorker.run` (source lines 164–218): header chunks,
per-record chunks, summary chunks.  The destination file is written
incrementally, one chunk per `f.write` call. -/
def gesnChunks (m : GesnMetadata) (rs : List GesnWorkRecord)
    (totalParsed parseErrors : Nat) (docTitle : String) : List String :=
  [ "# " ++ docTitle ++ "\n\n",
    "**База:** " ++ m.base_name ++ "  \n",
    "**Ценовой уровень:** " ++ m.price_level ++ "  \n",
    "**Основание:** " ++ m.decree_name ++ "  \n",
    "**Категория:** " ++ m.category_type ++ "\n\n",
    "---\n\n" ]
  ++ gesnRecordChunks rs
  ++ [ "# Сводная информация по конвертации\n\n",
       "| Параметр | Значение |\n",
       "|---|---|\n",
       "| Всего обработано элементов Work в XML | " ++ fmtThousands totalParsed ++ " |\n",
       "| Успешно создано записей в Markdown | " ++ fmtThousands rs.length ++ " |\n",
       "| Пропущено с ошибками | " ++ fmtThousands parseErrors ++ " |\n",
       "| Общее количество ресурсов | " ++ fmtThousands (gesnTotalResources rs) ++ " |\n",
       "| Общее количество пунктов состава работ | "
         ++ fmtThousands (gesnTotalContentItems rs) ++ " |\n",
       "" ]

/-- Spec-side characterization for the context-stack lookup: the most
recently pushed still-open stack entry whose type label is `t` (the stack
list runs bottom to top, so this is the first match of the reversed list),
or the empty triple when no container of that type is open. -/
def mostRecent (stack : List Ctx) (t : String) : Ctx :=
  (stack.reverse.find? (fun c => c.ctype = t)).getD ⟨"", "", ""⟩

/-- Spec-side form of the ГЭСН resource-table row demanded by the claim that
every table cell is pipe-escaped: all four cells passed through the escape. -/
def specEscapedResourceRow (res : GesnWorkResource) : String :=
  "| " ++ escapePipes res.code ++ " | " ++ escapePipes res.end_name ++ " | " ++
    escapePipes res.measure_unit ++ " | " ++ escapePipes res.quantity ++ " |\n"

/-- Number of pipe characters not immediately preceded by a backslash. -/
def unescapedPipes : List Char → Nat
  | [] => 0
  | [c] => if c = '|' then 1 else 0
  | c :: d :: rest =>
    if c = '\\' ∧ d = '|' then unescapedPipes rest
    else (if c = '|' then 1 else 0) + unescapedPipes (d :: rest)

/-- A минимальный well-formed ФСБЦ source with no `Resource` element. -/
def noResourceDoc : XmlElem := .mk "ResourceCategory" [("Type", "Материалы")] none []

/-- A well-formed one-resource ФСБЦ source whose raw form contains the
pre-scan marker exactly once. -/
def oneResourceDoc : XmlElem :=
  .mk "ResourceCategory" [("Type", "Материалы")] none
    [ .mk "Section" [("Type", "Книга"), ("Code", "1"), ("Name", "Материалы")] none
        [ .mk "Resource" [("Code", "1.1-1"), ("Name", "Гвозди"), ("MeasureUnit", "т")] none
            [ .mk "Price" [("Cost", "10"), ("OptCost", "9")] none [] ] ] ]

/-- An attribute-free `Resource` element: its raw form `<Resource></Resource>`
does not contain the pre-scan marker `<Resource ` (with trailing space), so a
run of them makes the pre-scan undercount the true leaf count. -/
def bareResource : XmlElem := .mk "Resource" [] none []

/-- A well-formed ФСБЦ source with 500 leaf elements none of which the
pre-scan marker matches: the progress denominator collapses to 1. -/
def undercountDoc : XmlElem :=
  .mk "ResourceCategory" [("Type", "Материалы")] none (List.replicate 500 bareResource)

/-- A closed `Resource` element satisfying all record checks, for exercising
one parser step. -/
def okResourceElem : XmlElem :=
  .mk "Resource" [("Code", "1.1-2"), ("Name", "Болты"), ("MeasureUnit", "кг")] none
    [ .mk "Price" [("Cost", "5"), ("OptCost", "4")] none [] ]

/-- The extraction oracle that raises on every leaf. -/
def failingExtract : GesnExtract := fun _ _ _ => .error ()

/-- A ГЭСН source with exactly one `Work` leaf. -/
def oneWorkDoc : XmlElem :=
  .mk "gesn" [] none
    [ .mk "NameGroup" [("BeginName", "Разработка грунта")] none
        [ .mk "Work" [("Code", "01-01-001-01"), ("EndName", "экскаватором")] none [] ] ]

/-- A ГЭСН source with no `Work` element. -/
def noWorkDoc : XmlElem := .mk "gesn" [] none [.mk "base" [("PriceLevel", "2000")] none []]

/-- The record the ГЭСН parser emits for `oneWorkDoc`. -/
def oneWorkRec : GesnWorkRecord :=
  { name_group_begin := "Разработка грунта", code := "01-01-001-01",
    end_name := "экскаватором", full_name := "Разработка грунта экскаватором" }

/-- Two records sharing a group code under different section codes: the key
serializer regression scenario. -/
def recSectionA : ResourceRecord :=
  { category_type := "Материалы", book_code := "1", book_name := "Книга",
    part_code := "1.1", part_name := "Часть", section_code := "1.1.1",
    section_name := "Раздел А", group_code := "Г1", group_name := "Группа",
    code := "1-1", name := "Гвозди", measure_unit := "т", cost := "10", opt_cost := "9" }

/-- Second record: same group code as `recSectionA`, different section code. -/
def recSectionB : ResourceRecord :=
  { recSectionA with
    section_code := "1.1.2",
    section_name := "Раздел Б",
    code := "1-2",
    name := "Шурупы" }

/-- A consumed-resource line whose code cell contains a pipe character. -/
def pipeResource : GesnWorkResource :=
  { code := "A|B", end_name := "Кран", quantity := "1,5", measure_unit := "шт" }

/-- A small work record for export scenarios. -/
def smallWorkRec : GesnWorkRecord :=
  { code := "01-01", full_name := "Работа", measure_unit := "м3" }

/-- Number of occurrences of a line in a line list. -/
def countOcc (a : String) : List String → Nat
  | [] => 0
  | x :: xs => (if x = a then 1 else 0) + countOcc a xs

/-- A consumed-resource line with a pipe only in its name cell. -/
def plainResource : GesnWorkResource :=
  { code := "91.01.01-035", end_name := "Кран |гусеничный", quantity := "0,45",
    measure_unit := "маш.-ч" }

theorem fsbcStep_count (total : Nat) (st : FsbcState) (ev : XmlEvent) :
    (fsbcStep total st ev).records.length + (fsbcStep total st ev).errors =
      st.records.length + st.errors + (if isResStop ev then 1 else 0) := by
  cases ev with
  | start e =>
    simp only [fsbcStep, isResStop]
    split_ifs <;> simp_all
  | stop e =>
    simp only [fsbcStep, isResStop]
    split_ifs <;> simp_all <;> omega

theorem fsbcStep_parsed (total : Nat) (st : FsbcState) (ev : XmlEvent) :
    (fsbcStep total st ev).parsed = st.parsed + (if isResStop ev then 1 else 0) := by
  cases ev with
  | start e =>
    simp only [fsbcStep, isResStop]
    split_ifs <;> simp_all
  | stop e =>
    simp only [fsbcStep, isResStop]
    split_ifs <;> simp_all

theorem fsbcFold_count (total : Nat) (evs : List XmlEvent) (st : FsbcState) :
    (evs.foldl (fsbcStep total) st).records.length + (evs.foldl (fsbcStep total) st).errors
      = st.records.length + st.errors + countResStops evs := by
  induction evs generalizing st with
  | nil => simp [countResStops]
  | cons ev evs ih =>
    rw [List.foldl_cons, ih, fsbcStep_count]
    simp only [countResStops, List.countP_cons]
    omega

theorem fsbcFold_parsed (total : Nat) (evs : List XmlEvent) (st : FsbcState) :
    (evs.foldl (fsbcStep total) st).parsed = st.parsed + countResStops evs := by
  induction evs generalizing st with
  | nil => simp [countResStops]
  | cons ev evs ih =>
    rw [List.foldl_cons, ih, fsbcStep_parsed]
    simp only [countResStops, List.countP_cons]
    omega

theorem fsbcStep_progress (total : Nat) (st : FsbcState) (ev : XmlEvent) (v : Nat)
    (hv : v ∈ (fsbcStep total st ev).progress) :
    v ∈ st.progress ∨ (v = (st.parsed + 1) * 100 / total ∧ isResStop ev = true) := by
  cases ev with
  | start e =>
    simp only [fsbcStep] at hv
    split_ifs at hv <;> simp_all
  | stop e =>
    simp only [fsbcStep, isResStop] at hv ⊢
    split_ifs at hv <;> simp_all

theorem fsbcFold_progress (total : Nat) (evs : List XmlEvent) (st : FsbcState) (v : Nat)
    (hv : v ∈ (evs.foldl (fsbcStep total) st).progress) :
    v ∈ st.progress ∨ ∃ p, p ≤ st.parsed + countResStops evs ∧ v = p * 100 / total := by
  induction evs generalizing st with
  | nil => exact Or.inl hv
  | cons ev evs ih =>
    rw [List.foldl_cons] at hv
    rcases ih (fsbcStep total st ev) hv with h | ⟨p, hp, hpv⟩
    · rcases fsbcStep_progress total st ev v h with h' | ⟨hval, hres⟩
      · exact Or.inl h'
      · refine Or.inr ⟨st.parsed + 1, ?_, hval⟩
        simp [countResStops, List.countP_cons, hres]
    · refine Or.inr ⟨p, ?_, hpv⟩
      rw [fsbcStep_parsed] at hp
      simp only [countResStops, List.countP_cons] at hp ⊢
      split_ifs at hp ⊢ <;> omega

theorem fsbc_run_records (doc : XmlElem) :
    (fsbcRun doc).1.records =
      ((eventsOf doc).foldl (fsbcStep (fsbcTotal doc)) fsbcInit).records := rfl

theorem fsbc_run_errors (doc : XmlElem) :
    (fsbcRun doc).1.errors =
      ((eventsOf doc).foldl (fsbcStep (fsbcTotal doc)) fsbcInit).errors := rfl

/-- C1 (amended): for every ФСБЦ source on which the parse completes, the
number of records created plus the error count equals the exact number of
`Resource` close events; it equals the returned candidate count — the
pre-scan count of `<Resource ` in the raw bytes, floored at 1 — exactly when
that pre-scan count equals the number of `Resource` close events and is at
least 1.  (The claim's unconditional equality fails: see the
counterexample, a well-formed source with no `Resource` element, where the
floor makes the candidate count 1 while records + errors = 0.) -/
theorem fsbc_candidate_count (doc : XmlElem) :
    (fsbcRun doc).1.records.length + (fsbcRun doc).1.errors = countResStops (eventsOf doc)
    ∧ (countSub resMarker (render doc).data = countResStops (eventsOf doc) →
        1 ≤ countResStops (eventsOf doc) →
        (fsbcRun doc).1.records.length + (fsbcRun doc).1.errors = (fsbcRun doc).2) := by
  have hmain : (fsbcRun doc).1.records.length + (fsbcRun doc).1.errors
      = countResStops (eventsOf doc) := by
    rw [fsbc_run_records, fsbc_run_errors,
      fsbcFold_count (fsbcTotal doc) (eventsOf doc) fsbcInit]
    simp [fsbcInit]
  refine ⟨hmain, fun hc hge => ?_⟩
  have htot : (fsbcRun doc).2 = countResStops (eventsOf doc) := by
    show (if countSub resMarker (render doc).data = 0 then 1
          else countSub resMarker (render doc).data) = _
    rw [hc, if_neg (by omega)]
  rw [hmain, htot]

/-- C1 counterexample: on a well-formed ФСБЦ source with no `Resource`
element the parser returns candidate count 1 (the pre-scan count 0 floored
at 1) while records created + errors = 0, so the claimed equality fails. -/
theorem fsbc_candidate_count_cex :
    (fsbcRun noResourceDoc).1.records.length + (fsbcRun noResourceDoc).1.errors ≠
      (fsbcRun noResourceDoc).2 := by decide

/-- C1 witness: on a one-resource source whose raw form contains the marker
exactly once, the hypotheses of the amended claim hold and records created
plus errors equals the returned candidate count. -/
theorem fsbc_candidate_count_w :
    countSub resMarker (render oneResourceDoc).data = countResStops (eventsOf oneResourceDoc)
    ∧ 1 ≤ countResStops (eventsOf oneResourceDoc)
    ∧ (fsbcRun oneResourceDoc).1.records.length + (fsbcRun oneResourceDoc).1.errors =
        (fsbcRun oneResourceDoc).2 :=
  ⟨by decide, by decide, (fsbc_candidate_count oneResourceDoc).2 (by decide) (by decide)⟩

/-- C3: at a `Resource` close event the ФСБЦ parser appends exactly one
normalized record if and only if the `Code` attribute is non-empty, the
`Name` attribute is non-empty, and a nested `Price` element is found;
otherwise it appends nothing and increments the error count by one; in both
cases the leaf counter advances and the parse continues. -/
theorem fsbc_resource_close_iff (total : Nat) (st : FsbcState) (e : XmlElem)
    (htag : e.tag = "Resource") :
    ((fsbcStep total st (.stop e)).records = st.records ++
        [mkResourceRecord st.cat st.stack e ((findDesc "Price" e.children).getD dummyElem)]
      ∧ (fsbcStep total st (.stop e)).errors = st.errors
      ↔ attr e "Code" ≠ "" ∧ attr e "Name" ≠ "" ∧ (findDesc "Price" e.children).isSome)
    ∧ ((fsbcStep total st (.stop e)).records = st.records
        ∧ (fsbcStep total st (.stop e)).errors = st.errors + 1
      ↔ ¬(attr e "Code" ≠ "" ∧ attr e "Name" ≠ "" ∧ (findDesc "Price" e.children).isSome))
    ∧ (fsbcStep total st (.stop e)).parsed = st.parsed + 1 := by
  by_cases hcond : attr e "Code" ≠ "" ∧ attr e "Name" ≠ "" ∧ (findDesc "Price" e.children).isSome
  · simp [fsbcStep, htag, hcond]
  · simp [fsbcStep, htag, hcond]

/-- C3 witness: a concrete closed `Resource` element with code, name and a
nested `Price` element is appended as a record with no error counted. -/
theorem fsbc_resource_close_iff_w :
    okResourceElem.tag = "Resource"
    ∧ (fsbcStep 1 fsbcInit (.stop okResourceElem)).records = fsbcInit.records ++
        [mkResourceRecord fsbcInit.cat fsbcInit.stack okResourceElem
          ((findDesc "Price" okResourceElem.children).getD dummyElem)]
    ∧ (fsbcStep 1 fsbcInit (.stop okResourceElem)).errors = fsbcInit.errors :=
  ⟨rfl,
   ((fsbc_resource_close_iff 1 fsbcInit okResourceElem rfl).1.mpr (by decide)).1,
   ((fsbc_resource_close_iff 1 fsbcInit okResourceElem rfl).1.mpr (by decide)).2⟩

theorem foldl_choose (t : String) (l : List Ctx) (a : Ctx) :
    l.foldl (fun acc c => if c.ctype = t then c else acc) a =
      (l.reverse.find? (fun c => c.ctype = t)).getD a := by
  induction l using List.reverseRecOn with
  | nil => simp
  | append_singleton l x ih =>
    rw [List.foldl_append]
    by_cases h : x.ctype = t
    · simp [h, List.find?]
    · simp [h, ih]

theorem hierFold_book (l : List Ctx) (a : Ctx × Ctx × Ctx × Ctx) :
    (l.foldl hierUpd a).1 =
      l.foldl (fun acc c => if c.ctype = "Книга" then c else acc) a.1 := by
  induction l generalizing a with
  | nil => rfl
  | cons c l ih =>
    rw [List.foldl_cons, List.foldl_cons, ih]
    rfl

theorem hierFold_part (l : List Ctx) (a : Ctx × Ctx × Ctx × Ctx) :
    (l.foldl hierUpd a).2.1 =
      l.foldl (fun acc c => if c.ctype = "Часть" then c else acc) a.2.1 := by
  induction l generalizing a with
  | nil => rfl
  | cons c l ih =>
    rw [List.foldl_cons, List.foldl_cons, ih]
    rfl

theorem hierFold_sec (l : List Ctx) (a : Ctx × Ctx × Ctx × Ctx) :
    (l.foldl hierUpd a).2.2.1 =
      l.foldl (fun acc c => if c.ctype = "Раздел" then c else acc) a.2.2.1 := by
  induction l generalizing a with
  | nil => rfl
  | cons c l ih =>
    rw [List.foldl_cons, List.foldl_cons, ih]
    rfl

theorem hierFold_grp (l : List Ctx) (a : Ctx × Ctx × Ctx × Ctx) :
    (l.foldl hierUpd a).2.2.2 =
      l.foldl (fun acc c => if c.ctype = "Группа" then c else acc) a.2.2.2 := by
  induction l generalizing a with
  | nil => rfl
  | cons c l ih =>
    rw [List.foldl_cons, List.foldl_cons, ih]
    rfl

/-- C4: every record the ФСБЦ parser builds at a `Resource` close carries,
for each of book/part/section/group, the code and name of the most recently
pushed still-open context-stack entry of that type label
("Книга"/"Часть"/"Раздел"/"Группа"), and the empty string when no container
of that type is open — the single-pass last-match lookup of the source
equals the reversed-stack first-match of the spec. -/
theorem fsbc_record_nearest_enclosing (cat : String) (stack : List Ctx) (e p : XmlElem) :
    (mkResourceRecord cat stack e p).book_code = (mostRecent stack "Книга").code
    ∧ (mkResourceRecord cat stack e p).book_name = (mostRecent stack "Книга").name
    ∧ (mkResourceRecord cat stack e p).part_code = (mostRecent stack "Часть").code
    ∧ (mkResourceRecord cat stack e p).part_name = (mostRecent stack "Часть").name
    ∧ (mkResourceRecord cat stack e p).section_code = (mostRecent stack "Раздел").code
    ∧ (mkResourceRecord cat stack e p).section_name = (mostRecent stack "Раздел").name
    ∧ (mkResourceRecord cat stack e p).group_code = (mostRecent stack "Группа").code
    ∧ (mkResourceRecord cat stack e p).group_name = (mostRecent stack "Группа").name := by
  simp only [mkResourceRecord, mostRecent]
  rw [hierFold_book, hierFold_part, hierFold_sec, hierFold_grp,
    foldl_choose, foldl_choose, foldl_choose, foldl_choose]
  exact ⟨rfl, rfl, rfl, rfl, rfl, rfl, rfl, rfl⟩

/-- C8 (amended): the ФСБЦ parser always emits 100 as its final progress
value, and every emitted percentage lies between 0 and 100 when the
pre-scan candidate count is exact (equals the number of `Resource` close
events); the code does not cap intermediate emissions, which exceed 100
when the pre-scan undercounts the true leaf count (see the
counterexample). -/
theorem fsbc_progress_bounds (doc : XmlElem) :
    (fsbcRun doc).1.progress.getLast? = some 100
    ∧ ((fsbcRun doc).2 = countResStops (eventsOf doc) →
        ∀ v ∈ (fsbcRun doc).1.progress, v ≤ 100) := by
  constructor
  · show (((eventsOf doc).foldl (fsbcStep (fsbcTotal doc)) fsbcInit).progress
      ++ [100]).getLast? = some 100
    simp
  · intro htot v hv
    have hv' : v ∈ ((eventsOf doc).foldl (fsbcStep (fsbcTotal doc)) fsbcInit).progress
        ++ [100] := hv
    have htot' : fsbcTotal doc = countResStops (eventsOf doc) := htot
    have hpos : 0 < fsbcTotal doc := by
      show 0 < (if countSub resMarker (render doc).data = 0 then 1
        else countSub resMarker (render doc).data)
      split <;> omega
    rcases List.mem_append.mp hv' with h | h
    · rcases fsbcFold_progress (fsbcTotal doc) (eventsOf doc) fsbcInit v h with h0 | ⟨p, hp, hvp⟩
      · simp [fsbcInit] at h0
      · have hple : p ≤ fsbcTotal doc := by
          rw [htot']
          simpa [fsbcInit] using hp
        rw [hvp]
        calc p * 100 / fsbcTotal doc
            ≤ fsbcTotal doc * 100 / fsbcTotal doc :=
              Nat.div_le_div_right (Nat.mul_le_mul_right 100 hple)
          _ = 100 := Nat.mul_div_cancel_left 100 hpos
    · simp at h
      omega

/-- C8 witness: on a one-resource source the pre-scan is exact, and the
final emission 100 is within the bound. -/
theorem fsbc_progress_bounds_w :
    (fsbcRun oneResourceDoc).2 = countResStops (eventsOf oneResourceDoc)
    ∧ 100 ∈ (fsbcRun oneResourceDoc).1.progress ∧ 100 ≤ 100 :=
  ⟨by decide, by decide,
   (fsbc_progress_bounds oneResourceDoc).2 (by decide) 100 (by decide)⟩

theorem scanBare (rest : List Char) :
    countSubAux resMarker ((render bareResource).data ++ rest) 0 =
      countSubAux resMarker rest 0 := by
  have h : (render bareResource).data = "<Resource></Resource>".data := rfl
  rw [h]
  simp [countSubAux, leadsWith, resMarker]

theorem scanBareList (n : Nat) (rest : List Char) :
    countSubAux resMarker ((renderList (List.replicate n bareResource)).data ++ rest) 0 =
      countSubAux resMarker rest 0 := by
  induction n generalizing rest with
  | zero => simp [List.replicate, renderList]
  | succ k ih =>
    rw [List.replicate_succ]
    show countSubAux resMarker
      ((render bareResource ++ renderList (List.replicate k bareResource)).data ++ rest) 0 = _
    rw [String.data_append, List.append_assoc, scanBare, ih]

theorem scanCatOpen (rest : List Char) :
    countSubAux resMarker ("<ResourceCategory Type=\"Материалы\">".data ++ rest) 0 =
      countSubAux resMarker rest 0 := by
  simp [countSubAux, leadsWith, resMarker]

theorem undercountTotal : fsbcTotal undercountDoc = 1 := by
  have h1 : render undercountDoc =
      ("<" ++ "ResourceCategory" ++ renderAttrs [("Type", "Материалы")] ++ ">"
          ++ xmlEscape (Option.getD none ""))
        ++ (renderList (List.replicate 500 bareResource)
          ++ ("</" ++ "ResourceCategory" ++ ">")) := rfl
  have h2 : ("<" ++ "ResourceCategory" ++ renderAttrs [("Type", "Материалы")] ++ ">"
      ++ xmlEscape (Option.getD none "")) = "<ResourceCategory Type=\"Материалы\">" := by
    decide
  have h3 : ("</" ++ "ResourceCategory" ++ ">" : String) = "</ResourceCategory>" := by decide
  have hc : countSub resMarker (render undercountDoc).data = 0 := by
    rw [countSub, h1, h2, h3, String.data_append, String.data_append, scanCatOpen,
      scanBareList]
    decide
  show (if countSub resMarker (render undercountDoc).data = 0 then 1
    else countSub resMarker (render undercountDoc).data) = 1
  rw [hc]
  decide

set_option maxRecDepth 40000 in
theorem fsbc_run_undercount_progress : (fsbcRun undercountDoc).1.progress = [50000, 100] := by
  show (((eventsOf undercountDoc).foldl (fsbcStep (fsbcTotal undercountDoc)) fsbcInit).progress
    ++ [100] : List Nat) = _
  rw [undercountTotal]
  decide

/-- C8 counterexample: on a well-formed source with 500 `Resource` elements
written without attributes the pre-scan marker never matches, the progress
denominator collapses to 1, and the parser emits the progress value 50000,
violating the claimed cap of 100. -/
theorem fsbc_progress_cex :
    50000 ∈ (fsbcRun undercountDoc).1.progress ∧ ¬ (50000 ≤ 100) := by
  rw [fsbc_run_undercount_progress]
  exact ⟨by decide, by decide⟩

theorem gesnStep_parsed (f : GesnExtract) (total : Nat) (st : GesnState) (ev : XmlEvent) :
    (gesnStep f total st ev).parsed = st.parsed + (if isWorkStop ev then 1 else 0) := by
  cases ev with
  | start e =>
    simp only [gesnStep, isWorkStop]
    split_ifs <;> simp_all
  | stop e =>
    simp only [gesnStep, isWorkStop]
    split_ifs <;> (try rcases hfe : f e st.stack st.ngb with r | u) <;> simp_all

theorem gesnStep_count (f : GesnExtract) (total : Nat) (st : GesnState) (ev : XmlEvent) :
    (gesnStep f total st ev).records.length + (gesnStep f total st ev).errors =
      st.records.length + st.errors + (if isWorkStop ev then 1 else 0) := by
  cases ev with
  | start e =>
    simp only [gesnStep, isWorkStop]
    split_ifs <;> simp_all
  | stop e =>
    simp only [gesnStep, isWorkStop]
    split_ifs <;> (try rcases hfe : f e st.stack st.ngb with r | u) <;> simp_all <;> omega

theorem gesnStep_failing (f : GesnExtract) (hf : ∀ e s n, f e s n = Except.error ())
    (total : Nat) (st : GesnState) (ev : XmlEvent) :
    (gesnStep f total st ev).records = st.records ∧
    (gesnStep f total st ev).errors = st.errors + (if isWorkStop ev then 1 else 0) := by
  cases ev with
  | start e =>
    simp only [gesnStep, isWorkStop]
    split_ifs <;> simp_all
  | stop e =>
    simp only [gesnStep, isWorkStop]
    split_ifs <;> simp_all [hf]

theorem gesnFold_parsed (f : GesnExtract) (total : Nat) (evs : List XmlEvent)
    (st : GesnState) :
    (evs.foldl (gesnStep f total) st).parsed = st.parsed + countWorkStops evs := by
  induction evs generalizing st with
  | nil => simp [countWorkStops]
  | cons ev evs ih =>
    rw [List.foldl_cons, ih, gesnStep_parsed]
    simp only [countWorkStops, List.countP_cons]
    omega

theorem gesnFold_count (f : GesnExtract) (total : Nat) (evs : List XmlEvent)
    (st : GesnState) :
    (evs.foldl (gesnStep f total) st).records.length + (evs.foldl (gesnStep f total) st).errors
      = st.records.length + st.errors + countWorkStops evs := by
  induction evs generalizing st with
  | nil => simp [countWorkStops]
  | cons ev evs ih =>
    rw [List.foldl_cons, ih, gesnStep_count]
    simp only [countWorkStops, List.countP_cons]
    omega

theorem gesnFold_failing (f : GesnExtract) (hf : ∀ e s n, f e s n = Except.error ())
    (total : Nat) (evs : List XmlEvent) (st : GesnState) :
    (evs.foldl (gesnStep f total) st).records = st.records ∧
    (evs.foldl (gesnStep f total) st).errors = st.errors + countWorkStops evs := by
  induction evs generalizing st with
  | nil => simp [countWorkStops]
  | cons ev evs ih =>
    rw [List.foldl_cons]
    rcases ih (gesnStep f total st ev) with ⟨hr, he⟩
    rcases gesnStep_failing f hf total st ev with ⟨hr0, he0⟩
    refine ⟨hr.trans hr0, ?_⟩
    rw [he, he0]
    simp only [countWorkStops, List.countP_cons]
    omega

/-- C5: in the ГЭСН parser any exception raised while extracting a `Work`
leaf is caught: with an extraction oracle that raises on every leaf, the
parse still completes, appends no record, and counts one error per `Work`
close event — in particular a source with one failing `Work` yields 0
records and 1 error without aborting. -/
theorem gesn_per_record_failure_contained (f : GesnExtract) (doc : XmlElem)
    (hf : ∀ e s n, f e s n = Except.error ()) :
    (gesnRunWith f doc).records = [] ∧
    (gesnRunWith f doc).errors = countWorkStops (eventsOf doc) ∧
    (gesnRunWith f doc).parsed = countWorkStops (eventsOf doc) := by
  have hr : (gesnRunWith f doc).records =
      ((eventsOf doc).foldl (gesnStep f (gesnTotal doc)) gesnInit).records := rfl
  have he : (gesnRunWith f doc).errors =
      ((eventsOf doc).foldl (gesnStep f (gesnTotal doc)) gesnInit).errors := rfl
  have hp : (gesnRunWith f doc).parsed =
      ((eventsOf doc).foldl (gesnStep f (gesnTotal doc)) gesnInit).parsed := rfl
  rcases gesnFold_failing f hf (gesnTotal doc) (eventsOf doc) gesnInit with ⟨h1, h2⟩
  refine ⟨hr.trans h1, ?_, ?_⟩
  · rw [he, h2]
    simp [gesnInit]
  · rw [hp, gesnFold_parsed]
    simp [gesnInit]

/-- C5 witness: a ГЭСН source with exactly one `Work` leaf whose extraction
raises yields 0 records, 1 error, and candidate count 1. -/
theorem gesn_per_record_failure_contained_w :
    (gesnRunWith failingExtract oneWorkDoc).records = [] ∧
    (gesnRunWith failingExtract oneWorkDoc).errors = 1 ∧
    (gesnRunWith failingExtract oneWorkDoc).parsed = 1 := by
  have h := gesn_per_record_failure_contained failingExtract oneWorkDoc (fun _ _ _ => rfl)
  exact ⟨h.1, h.2.1.trans (by decide), h.2.2.trans (by decide)⟩

/-- C10: for every extraction oracle and source, the candidate count the
ГЭСН parser returns is the exact number of `Work` close events seen during
streaming (not the pre-scan estimate), it equals records created plus the
error count, and a source with zero `Work` elements returns 0. -/
theorem gesn_candidate_count_exact (f : GesnExtract) (doc : XmlElem) :
    (gesnRunWith f doc).parsed = countWorkStops (eventsOf doc)
    ∧ (gesnRunWith f doc).parsed =
        (gesnRunWith f doc).records.length + (gesnRunWith f doc).errors
    ∧ (countWorkStops (eventsOf doc) = 0 → (gesnRunWith f doc).parsed = 0) := by
  have hp : (gesnRunWith f doc).parsed =
      ((eventsOf doc).foldl (gesnStep f (gesnTotal doc)) gesnInit).parsed := rfl
  have hr : (gesnRunWith f doc).records =
      ((eventsOf doc).foldl (gesnStep f (gesnTotal doc)) gesnInit).records := rfl
  have he : (gesnRunWith f doc).errors =
      ((eventsOf doc).foldl (gesnStep f (gesnTotal doc)) gesnInit).errors := rfl
  have h1 : (gesnRunWith f doc).parsed = countWorkStops (eventsOf doc) := by
    rw [hp, gesnFold_parsed]
    simp [gesnInit]
  refine ⟨h1, ?_, fun h0 => h1.trans h0⟩
  rw [hr, he, h1]
  have hcnt := gesnFold_count f (gesnTotal doc) (eventsOf doc) gesnInit
  have hrl : gesnInit.records.length = 0 := rfl
  have hel : gesnInit.errors = 0 := rfl
  rw [hrl, hel] at hcnt
  omega

/-- C10 witness: a ГЭСН source without `Work` elements has zero `Work`
close events and the parser returns candidate count 0. -/
theorem gesn_candidate_count_exact_w :
    countWorkStops (eventsOf noWorkDoc) = 0 ∧ (gesnRunWith gesnOk noWorkDoc).parsed = 0 :=
  ⟨by decide, (gesn_candidate_count_exact gesnOk noWorkDoc).2.2 (by decide)⟩

theorem extractWork_full_name (e : XmlElem) (stack : List Ctx) (ngb : String) :
    (extractWork e stack ngb).full_name =
      (if (extractWork e stack ngb).end_name = "" then (extractWork e stack ngb).name_group_begin
       else pyStrip ((extractWork e stack ngb).name_group_begin ++ " " ++
         (extractWork e stack ngb).end_name)) := by
  by_cases h : attr e "EndName" = "" <;> simp [extractWork, h]

theorem gesnStep_full_name (total : Nat) (st : GesnState) (ev : XmlEvent)
    (hst : ∀ r ∈ st.records, r.full_name =
      (if r.end_name = "" then r.name_group_begin
       else pyStrip (r.name_group_begin ++ " " ++ r.end_name))) :
    ∀ r ∈ (gesnStep gesnOk total st ev).records, r.full_name =
      (if r.end_name = "" then r.name_group_begin
       else pyStrip (r.name_group_begin ++ " " ++ r.end_name)) := by
  cases ev with
  | start e =>
    simp only [gesnStep]
    split_ifs <;> simpa using hst
  | stop e =>
    simp only [gesnStep, gesnOk]
    split_ifs <;> try simpa using hst
    all_goals
      intro r hr
      rcases List.mem_append.mp hr with h | h
      · exact hst r h
      · rcases List.mem_singleton.mp h with rfl
        exact extractWork_full_name e st.stack st.ngb

theorem gesnFold_full_name (total : Nat) (evs : List XmlEvent) (st : GesnState)
    (hst : ∀ r ∈ st.records, r.full_name =
      (if r.end_name = "" then r.name_group_begin
       else pyStrip (r.name_group_begin ++ " " ++ r.end_name))) :
    ∀ r ∈ (evs.foldl (gesnStep gesnOk total) st).records, r.full_name =
      (if r.end_name = "" then r.name_group_begin
       else pyStrip (r.name_group_begin ++ " " ++ r.end_name)) := by
  induction evs generalizing st with
  | nil => exact hst
  | cons ev evs ih =>
    rw [List.foldl_cons]
    exact ih (gesnStep gesnOk total st ev) (gesnStep_full_name total st ev hst)

/-- C9: every record the ГЭСН parser emits satisfies the full-name
derivation: `full_name` is the stripped concatenation of
`name_group_begin`, a space, and `end_name` when `end_name` is non-empty,
and `name_group_begin` alone when `end_name` is empty. -/
theorem gesn_full_name_derivation (doc : XmlElem) (r : GesnWorkRecord)
    (hr : r ∈ (gesnRun doc).records) :
    r.full_name = (if r.end_name = "" then r.name_group_begin
      else pyStrip (r.name_group_begin ++ " " ++ r.end_name)) := by
  have hr' : r ∈ ((eventsOf doc).foldl (gesnStep gesnOk (gesnTotal doc)) gesnInit).records := hr
  exact gesnFold_full_name (gesnTotal doc) (eventsOf doc) gesnInit (by simp [gesnInit]) r hr'

/-- C9 witness: the record parsed from a `NameGroup` with begin name
"Разработка грунта" containing a `Work` with end name "экскаватором" has
full name "Разработка грунта экскаватором" and satisfies the derivation. -/
theorem gesn_full_name_derivation_w :
    oneWorkRec ∈ (gesnRun oneWorkDoc).records
    ∧ oneWorkRec.full_name = (if oneWorkRec.end_name = "" then oneWorkRec.name_group_begin
        else pyStrip (oneWorkRec.name_group_begin ++ " " ++ oneWorkRec.end_name)) :=
  ⟨by decide, gesn_full_name_derivation oneWorkDoc oneWorkRec (by decide)⟩

theorem escList_not_pipe_head (l : List Char) (t : List Char) : escList l ≠ '|' :: t := by
  cases l with
  | nil => simp [escList]
  | cons c rest =>
    by_cases hc : c = '|'
    · simp [escList, hc]
    · simp [escList, hc]

theorem escList_unescaped (l : List Char) : unescapedPipes (escList l) = 0 := by
  induction l with
  | nil => rfl
  | cons c rest ih =>
    by_cases hc : c = '|'
    · simp [escList, hc, unescapedPipes, ih]
    · cases h : escList rest with
      | nil => simp [escList, hc, h, unescapedPipes]
      | cons d tl =>
        have hd : d ≠ '|' := by
          intro hdq
          exact escList_not_pipe_head rest tl (by rw [h, hdq])
        have := ih
        rw [h] at this
        simp [escList, hc, h, unescapedPipes, hd, this]

theorem escList_id (l : List Char) (h : l.count '|' = 0) : escList l = l := by
  induction l with
  | nil => rfl
  | cons c rest ih =>
    rw [List.count_cons] at h
    have hc : c ≠ '|' := by
      intro hcq
      simp [hcq] at h
    simp [escList, hc, ih (by omega)]

theorem escapePipes_id (s : String) (h : s.data.count '|' = 0) : escapePipes s = s := by
  cases s with
  | mk l => exact congrArg String.mk (escList_id l h)

/-- C7 (amended): in the ГЭСН resource table only the name cell is
pipe-escaped — the escape leaves no unescaped pipe in that cell for any
input — while the code, unit, and quantity cells are written verbatim, so a
row coincides with the fully-escaped form demanded by the claim exactly
when those three fields contain no pipe character.  (The claim's "every
cell" fails: see the counterexample with a pipe in the code cell.) -/
theorem gesn_resource_row_escaping (res : GesnWorkResource) :
    unescapedPipes (escapePipes res.end_name).data = 0
    ∧ (res.code.data.count '|' = 0 → res.measure_unit.data.count '|' = 0 →
        res.quantity.data.count '|' = 0 →
        gesnResourceRow res = specEscapedResourceRow res) := by
  constructor
  · exact escList_unescaped res.end_name.data
  · intro h1 h2 h3
    rw [specEscapedResourceRow, gesnResourceRow, escapePipes_id res.code h1,
      escapePipes_id res.measure_unit h2, escapePipes_id res.quantity h3]

/-- C7 counterexample: a resource whose code cell contains `A|B` is written
verbatim, so the emitted row differs from the row with every cell
escaped. -/
theorem gesn_resource_row_escaping_cex :
    gesnResourceRow pipeResource ≠ specEscapedResourceRow pipeResource := by decide

/-- C7 witness: for a resource whose code/unit/quantity are pipe-free and
whose name contains a pipe, the emitted row equals the fully-escaped row and
the escaped name cell has no unescaped pipe. -/
theorem gesn_resource_row_escaping_w :
    plainResource.code.data.count '|' = 0
    ∧ plainResource.measure_unit.data.count '|' = 0
    ∧ plainResource.quantity.data.count '|' = 0
    ∧ unescapedPipes (escapePipes plainResource.end_name).data = 0
    ∧ gesnResourceRow plainResource = specEscapedResourceRow plainResource :=
  ⟨by decide, by decide, by decide,
   (gesn_resource_row_escaping plainResource).1,
   (gesn_resource_row_escaping plainResource).2 (by decide) (by decide) (by decide)⟩

theorem joinFoldl_shift (l : List String) (s : String) :
    l.foldl (· ++ ·) s = s ++ l.foldl (· ++ ·) "" := by
  induction l generalizing s with
  | nil => simp [String.append_empty]
  | cons a l ih =>
    rw [List.foldl_cons, List.foldl_cons, ih (s ++ a), ih ("" ++ a),
      String.empty_append, String.append_assoc]

theorem join_append (l1 l2 : List String) :
    String.join (l1 ++ l2) = String.join l1 ++ String.join l2 := by
  induction l1 with
  | nil => simp [String.join, String.empty_append]
  | cons a l ih =>
    show (l ++ l2).foldl (· ++ ·) ("" ++ a) = (l.foldl (· ++ ·) ("" ++ a)) ++ String.join l2
    rw [joinFoldl_shift (l ++ l2), joinFoldl_shift l]
    show "" ++ a ++ String.join (l ++ l2) = "" ++ a ++ String.join l ++ String.join l2
    rw [ih, String.append_assoc, String.append_assoc, String.append_assoc]

/-- C6 (amended): the ФСБЦ exporter builds the whole document in memory and
performs exactly one write, so after any failure point the destination holds
either nothing or the complete document; the ГЭСН exporter writes chunk by
chunk, and a failure after `k` chunks leaves exactly the concatenation of
the first `k` chunks — a prefix of the complete document, i.e. a truncated
partial file.  (The claim's all-or-nothing guarantee for every export call
fails for the ГЭСН exporter: see the counterexample.) -/
theorem export_write_shape (m : CatalogMetadata) (rs : List ResourceRecord)
    (t e : Nat) (gm : GesnMetadata) (grs : List GesnWorkRecord) (gt ge : Nat)
    (title : String) (k : Nat) :
    (String.join ((fsbcWriteChunks m rs t e).take k) = ""
      ∨ String.join ((fsbcWriteChunks m rs t e).take k) = String.join (fsbcWriteChunks m rs t e))
    ∧ String.join ((gesnChunks gm grs gt ge title).take k)
        ++ String.join ((gesnChunks gm grs gt ge title).drop k)
        = String.join (gesnChunks gm grs gt ge title) := by
  constructor
  · cases k with
    | zero => exact Or.inl rfl
    | succ n =>
      refine Or.inr ?_
      rw [fsbcWriteChunks]
      simp
  · rw [← join_append, List.take_append_drop]

/-- C6 counterexample: a ГЭСН export of one record issues more than one
write, and stopping after the first write leaves content that is neither
empty nor the complete document — a partial file at the destination. -/
theorem gesn_export_partial_file_cex :
    1 < (gesnChunks {} [smallWorkRec] 1 0 "ГЭСН").length
    ∧ String.join ((gesnChunks {} [smallWorkRec] 1 0 "ГЭСН").take 1) ≠ ""
    ∧ String.join ((gesnChunks {} [smallWorkRec] 1 0 "ГЭСН").take 1) ≠
        String.join (gesnChunks {} [smallWorkRec] 1 0 "ГЭСН") := by
  refine ⟨by decide, by decide, by decide⟩

theorem countOcc_append (a : String) (l1 l2 : List String) :
    countOcc a (l1 ++ l2) = countOcc a l1 + countOcc a l2 := by
  induction l1 with
  | nil => simp [countOcc]
  | cons x xs ih => simp [countOcc, ih]; omega

theorem take2_ne {a b : String} (h : a.data.take 2 ≠ b.data.take 2) : a ≠ b := by
  intro e
  rw [e] at h
  exact h rfl

theorem hash_ne_sep (s : String) : ("# " ++ s) ≠ fsbcTableSep := by
  apply take2_ne
  simp [String.data_append, fsbcTableSep]

theorem hash2_ne_sep (s t : String) : ("## " ++ s ++ ". " ++ t) ≠ fsbcTableSep := by
  apply take2_ne
  simp [String.data_append, fsbcTableSep]

theorem pipe_ne_sep (a b c d e : String) :
    ("| " ++ a ++ " | " ++ b ++ " | " ++ c ++ " | " ++ d ++ " | " ++ e ++ " |") ≠
      fsbcTableSep := by
  apply take2_ne
  simp [String.data_append, fsbcTableSep]

theorem hash3_ne_sep (s t : String) : ("### " ++ s ++ ". " ++ t) ≠ fsbcTableSep := by
  apply take2_ne
  simp [String.data_append, fsbcTableSep]

theorem hash4_ne_sep (s t : String) : ("#### " ++ s ++ ". " ++ t) ≠ fsbcTableSep := by
  apply take2_ne
  simp [String.data_append, fsbcTableSep]

theorem hash5_ne_sep (s t : String) : ("##### " ++ s ++ ". " ++ t) ≠ fsbcTableSep := by
  apply take2_ne
  simp [String.data_append, fsbcTableSep]

theorem empty_ne_sep : "" ≠ fsbcTableSep := by decide

theorem hdr_ne_sep : fsbcTableHdr ≠ fsbcTableSep := by decide

theorem mdRow_ne_sep (r : ResourceRecord) : mdRow r ≠ fsbcTableSep := by
  rw [mdRow]
  exact pipe_ne_sep _ _ _ _ _

theorem mdStep_init_state (r : ResourceRecord) :
    (mdStep mdInit r).1 = ⟨some r.category_type, some r.book_code, some r.part_code,
      some r.section_code, some r.group_code⟩ := by
  simp [mdStep, mdStepCat, mdStepBook, mdStepPart, mdStepSec, mdStepGrp, mdInit]

theorem mdStep_init_count (r : ResourceRecord) :
    countOcc fsbcTableSep (mdStep mdInit r).2 = 1 := by
  simp [mdStep, mdStepCat, mdStepBook, mdStepPart, mdStepSec, mdStepGrp, mdInit,
    countOcc, countOcc_append, hash_ne_sep, hash2_ne_sep, hash3_ne_sep, hash4_ne_sep,
    hash5_ne_sep, empty_ne_sep, hdr_ne_sep, mdRow_ne_sep]

theorem mdStep_sec_change_count (s : MdState) (r : ResourceRecord)
    (hsec : s.sec ≠ some r.section_code) :
    countOcc fsbcTableSep (mdStep s r).2 = 1 := by
  simp only [mdStep, mdStepCat, mdStepBook, mdStepPart, mdStepSec, mdStepGrp]
  split_ifs <;>
    simp_all [countOcc, countOcc_append, hash_ne_sep, hash2_ne_sep, hash3_ne_sep,
      hash4_ne_sep, hash5_ne_sep, empty_ne_sep, hdr_ne_sep, mdRow_ne_sep]

theorem act_ne_sep (s : String) :
    ("**Утверждающий акт:** " ++ s ++ "  ") ≠ fsbcTableSep := by
  apply take2_ne
  simp [String.data_append, fsbcTableSep]

theorem date_ne_sep (s : String) :
    ("**Дата утверждения:** " ++ s) ≠ fsbcTableSep := by
  apply take2_ne
  simp [String.data_append, fsbcTableSep]

theorem countOcc_header (m : CatalogMetadata) :
    countOcc fsbcTableSep (mdHeaderLines m) = 0 := by
  have h1 : "# Федеральный сборник базовых цен на материалы и оборудование" ≠
    fsbcTableSep := by decide
  have h2 : "---" ≠ fsbcTableSep := by decide
  simp [mdHeaderLines, countOcc, act_ne_sep, date_ne_sep, empty_ne_sep, h1, h2]

theorem bullet1_ne_sep (s : String) :
    ("- **Прочитано ресурсов в XML:** " ++ s) ≠ fsbcTableSep := by
  apply take2_ne
  simp [String.data_append, fsbcTableSep]

theorem bullet2_ne_sep (s : String) :
    ("- **Создано записей в документе:** " ++ s) ≠ fsbcTableSep := by
  apply take2_ne
  simp [String.data_append, fsbcTableSep]

theorem bullet3_ne_sep (s : String) :
    ("- **Пропущено (ошибки):** " ++ s) ≠ fsbcTableSep := by
  apply take2_ne
  simp [String.data_append, fsbcTableSep]

theorem bullet4_ne_sep (s : String) :
    ("- **Книг (разделов верхнего уровня):** " ++ s) ≠ fsbcTableSep := by
  apply take2_ne
  simp [String.data_append, fsbcTableSep]

theorem bullet5_ne_sep (s : String) :
    ("- **Групп ресурсов:** " ++ s) ≠ fsbcTableSep := by
  apply take2_ne
  simp [String.data_append, fsbcTableSep]

theorem catrow_ne_sep (s t : String) :
    ("| " ++ s ++ " | " ++ t ++ " |") ≠ fsbcTableSep := by
  apply take2_ne
  simp [String.data_append, fsbcTableSep]

theorem countOcc_catRows (l : List (String × Nat)) :
    countOcc fsbcTableSep
      (l.map (fun kv => "| " ++ kv.1 ++ " | " ++ toString kv.2 ++ " |")) = 0 := by
  induction l with
  | nil => rfl
  | cons kv l ih => simp [countOcc, catrow_ne_sep, ih]

theorem countOcc_summary (rs : List ResourceRecord) (t e : Nat) :
    countOcc fsbcTableSep (mdSummaryLines rs t e) = 0 := by
  have h1 : "# Сводная информация по конвертации" ≠ fsbcTableSep := by decide
  have h2 : "---" ≠ fsbcTableSep := by decide
  have h3 : "**По категориям:**" ≠ fsbcTableSep := by decide
  have h4 : "| Категория | Кол-во ресурсов |" ≠ fsbcTableSep := by decide
  have h5 : "|-----------|-----------------|" ≠ fsbcTableSep := by decide
  rw [mdSummaryLines, countOcc_append, countOcc_append, countOcc_catRows]
  simp [countOcc, bullet1_ne_sep, bullet2_ne_sep, bullet3_ne_sep, bullet4_ne_sep,
    bullet5_ne_sep, empty_ne_sep, h1, h2, h3, h4, h5]

theorem mdFold_cons (s : MdState) (r : ResourceRecord) (rs : List ResourceRecord) :
    (mdFold s (r :: rs)).2 = (mdStep s r).2 ++ (mdFold (mdStep s r).1 rs).2 := by
  simp [mdFold]

/-- C2: in the ФСБЦ serializer a change of section code between two
consecutive records forces a fresh level-5 group heading and table (the
higher-level change resets the lower-level trackers), so two records with
identical group code but different section codes produce two table-header
separators — one fresh table per record — in the emitted document. -/
theorem fsbc_serializer_section_reset (m : CatalogMetadata) (r1 r2 : ResourceRecord)
    (t e : Nat) (hsec : r1.section_code ≠ r2.section_code) :
    countOcc fsbcTableSep (mdLines m [r1, r2] t e) = 2 := by
  rw [mdLines, countOcc_append, countOcc_append, countOcc_header, countOcc_summary,
    mdFold_cons, countOcc_append, mdFold_cons, countOcc_append, mdStep_init_count]
  have hs1 : (mdStep mdInit r1).1.sec ≠ some r2.section_code := by
    rw [mdStep_init_state]
    simp [hsec]
  rw [mdStep_sec_change_count _ _ hs1]
  rfl

/-- C2 witness: two concrete records with the same group code and different
section codes yield exactly two table separators in the document. -/
theorem fsbc_serializer_section_reset_w :
    recSectionA.section_code ≠ recSectionB.section_code
    ∧ countOcc fsbcTableSep (mdLines ⟨"123", "2024-01-01"⟩ [recSectionA, recSectionB] 3 1)
        = 2 :=
  ⟨by decide,
   fsbc_serializer_section_reset ⟨"123", "2024-01-01"⟩ recSectionA recSectionB 3 1
     (by decide)⟩
